import Mathlib

set_option maxHeartbeats 1000000
set_option maxRecDepth 100000

/-!
Shallow embedding of the Olist financial dashboard pipeline
(data_pipeline.py and streamlit_app.py).

Tables are lists of records, one structure per CSV schema.  Monetary
values are rationals, timestamps are parsed calendar records wrapped in
Option (pd.to_datetime with coercion of unparsable values to a missing
value).  The pandas groupby operations are modelled as: collect the keys
in first-appearance order, deduplicate, sort ascending (groupby sorts its
keys by default), then aggregate the rows of each group, which preserves
the within-group input order that the first aggregator observes.
-/

/-- Lexicographic comparison of character lists by Unicode code point.
This is the ordering Python applies when comparing str values, hence the
ordering pandas uses for the year_month window filter and for sorting
string keys. -/
def lexLe : List Char → List Char → Bool
  | [], _ => true
  | _ :: _, [] => false
  | a :: as, b :: bs =>
      if a.toNat < b.toNat then true
      else if b.toNat < a.toNat then false
      else lexLe as bs

/-- String comparison by code points, as Python compares str values. -/
def strLe (a b : String) : Bool := lexLe a.toList b.toList

/-- Propositional form of strLe, used as the sorting relation. -/
def strLeP (a b : String) : Prop := strLe a b = true

instance : DecidableRel strLeP := fun a b => inferInstanceAs (Decidable (strLe a b = true))

theorem lexLe_total (l₁ : List Char) : ∀ l₂, lexLe l₁ l₂ = true ∨ lexLe l₂ l₁ = true := by
  induction l₁ with
  | nil => intro l₂; left; cases l₂ <;> rfl
  | cons a as ih =>
    intro l₂
    cases l₂ with
    | nil => right; rfl
    | cons b bs =>
      rcases Nat.lt_trichotomy a.toNat b.toNat with h | h | h
      · left; simp [lexLe, h]
      · have h1 : ¬ a.toNat < b.toNat := by omega
        have h2 : ¬ b.toNat < a.toNat := by omega
        rcases ih bs with hh | hh
        · left; simp [lexLe, h1, h2, hh]
        · right; simp [lexLe, h1, h2, hh]
      · right; simp [lexLe, h]

theorem lexLe_trans (l₁ : List Char) :
    ∀ l₂ l₃, lexLe l₁ l₂ = true → lexLe l₂ l₃ = true → lexLe l₁ l₃ = true := by
  induction l₁ with
  | nil => intro l₂ l₃ _ _; cases l₃ <;> rfl
  | cons a as ih =>
    intro l₂ l₃ h1 h2
    cases l₂ with
    | nil => simp [lexLe] at h1
    | cons b bs =>
      cases l₃ with
      | nil => simp [lexLe] at h2
      | cons c cs =>
        by_cases hab : a.toNat < b.toNat <;> by_cases hbc : b.toNat < c.toNat
        · have hac : a.toNat < c.toNat := Nat.lt_trans hab hbc
          simp [lexLe, hac]
        · by_cases hcb : c.toNat < b.toNat
          · simp [lexLe, hbc, hcb] at h2
          · have hac : a.toNat < c.toNat := by omega
            simp [lexLe, hac]
        · by_cases hba : b.toNat < a.toNat
          · simp [lexLe, hab, hba] at h1
          · have hac : a.toNat < c.toNat := by omega
            simp [lexLe, hac]
        · by_cases hba : b.toNat < a.toNat
          · simp [lexLe, hab, hba] at h1
          · by_cases hcb : c.toNat < b.toNat
            · simp [lexLe, hbc, hcb] at h2
            · have h3 : ¬ a.toNat < c.toNat := by omega
              have h4 : ¬ c.toNat < a.toNat := by omega
              simp [lexLe, hab, hba] at h1
              simp [lexLe, hbc, hcb] at h2
              simp only [lexLe, if_neg h3, if_neg h4]
              exact ih bs cs h1 h2

instance : IsTotal String strLeP := ⟨fun a b => lexLe_total a.toList b.toList⟩

instance : IsTrans String strLeP := ⟨fun a b c h1 h2 => lexLe_trans a.toList b.toList c.toList h1 h2⟩

/-- Deduplication keeping the first occurrence of each element, the order in
which pandas groupby first encounters its group keys (before sorting them). -/
def firstSeenAux [DecidableEq α] (seen : List α) : List α → List α
  | [] => []
  | x :: xs => if x ∈ seen then firstSeenAux seen xs else x :: firstSeenAux (x :: seen) xs

def firstSeen [DecidableEq α] (l : List α) : List α := firstSeenAux [] l

theorem mem_firstSeenAux [DecidableEq α] (a : α) :
    ∀ (seen l : List α), a ∈ firstSeenAux seen l ↔ a ∈ l ∧ a ∉ seen := by
  intro seen l
  induction l generalizing seen with
  | nil => simp [firstSeenAux]
  | cons x xs ih =>
    by_cases hx : x ∈ seen
    · simp only [firstSeenAux, if_pos hx, ih]
      constructor
      · rintro ⟨h1, h2⟩; exact ⟨List.mem_cons_of_mem _ h1, h2⟩
      · rintro ⟨h1, h2⟩
        rcases List.mem_cons.mp h1 with rfl | h1
        · exact absurd hx h2
        · exact ⟨h1, h2⟩
    · simp only [firstSeenAux, if_neg hx, List.mem_cons, ih]
      constructor
      · rintro (rfl | ⟨h1, h2⟩)
        · exact ⟨Or.inl rfl, hx⟩
        · exact ⟨Or.inr h1, fun hs => h2 (Or.inr hs)⟩
      · rintro ⟨rfl | h1, h2⟩
        · exact Or.inl rfl
        · by_cases hax : a = x
          · exact Or.inl hax
          · refine Or.inr ⟨h1, ?_⟩
            rintro (h | h)
            · exact hax h
            · exact h2 h

theorem mem_firstSeen [DecidableEq α] (a : α) (l : List α) : a ∈ firstSeen l ↔ a ∈ l := by
  simp [firstSeen, mem_firstSeenAux]

theorem nodup_firstSeenAux [DecidableEq α] :
    ∀ (seen l : List α), (firstSeenAux seen l).Nodup := by
  intro seen l
  induction l generalizing seen with
  | nil => simp [firstSeenAux]
  | cons x xs ih =>
    by_cases hx : x ∈ seen
    · simpa [firstSeenAux, if_pos hx] using ih seen
    · simp only [firstSeenAux, if_neg hx, List.nodup_cons]
      refine ⟨fun hmem => ?_, ih (x :: seen)⟩
      exact ((mem_firstSeenAux x (x :: seen) xs).mp hmem).2 (List.mem_cons_self x seen)

theorem nodup_firstSeen [DecidableEq α] (l : List α) : (firstSeen l).Nodup :=
  nodup_firstSeenAux [] l

theorem length_firstSeenAux_le [DecidableEq α] :
    ∀ (seen l : List α), (firstSeenAux seen l).length ≤ l.length := by
  intro seen l
  induction l generalizing seen with
  | nil => simp [firstSeenAux]
  | cons x xs ih =>
    by_cases hx : x ∈ seen
    · simp only [firstSeenAux, if_pos hx]
      exact Nat.le_trans (ih seen) (Nat.le_succ _)
    · simpa [firstSeenAux, if_neg hx] using ih (x :: seen)

theorem length_firstSeen_le [DecidableEq α] (l : List α) : (firstSeen l).length ≤ l.length :=
  length_firstSeenAux_le [] l

theorem toFinset_firstSeen [DecidableEq α] (l : List α) :
    (firstSeen l).toFinset = l.toFinset := by
  ext a
  simp [List.mem_toFinset, mem_firstSeen]

/-- The length of the first-seen deduplication is the number of distinct
values, i.e. what pandas nunique returns for the column. -/
theorem length_firstSeen_eq_card [DecidableEq α] (l : List α) :
    (firstSeen l).length = l.toFinset.card := by
  rw [← toFinset_firstSeen, List.toFinset_card_of_nodup (nodup_firstSeen l)]

/-- Maximum of a list of naturals, the groupby max aggregator (installment
counts are nonnegative integers). -/
def natMax (l : List ℕ) : ℕ := l.foldr max 0

theorem le_natMax_of_mem {a : ℕ} : ∀ {l : List ℕ}, a ∈ l → a ≤ natMax l := by
  intro l
  induction l with
  | nil => intro h; cases h
  | cons x xs ih =>
    intro h
    rcases List.mem_cons.mp h with rfl | h
    · exact Nat.le_max_left _ _
    · exact Nat.le_trans (ih h) (Nat.le_max_right _ _)

theorem natMax_mem : ∀ {l : List ℕ}, l ≠ [] → natMax l ∈ l := by
  intro l
  induction l with
  | nil => intro h; exact absurd rfl h
  | cons x xs ih =>
    intro _
    cases xs with
    | nil => simp [natMax]
    | cons y ys =>
      rcases Nat.le_total x (natMax (y :: ys)) with h | h
      · have : natMax (x :: y :: ys) = natMax (y :: ys) := by
          simp [natMax] at h ⊢
          omega
        rw [this]
        exact List.mem_cons_of_mem _ (ih (by simp))
      · have : natMax (x :: y :: ys) = x := by
          simp [natMax] at h ⊢
          omega
        rw [this]
        exact List.mem_cons_self _ _

/-- Zero-padded two-digit month rendering, as pandas Period prints months. -/
def pad2 (n : ℕ) : String := if n < 10 then "0" ++ toString n else toString n

/-- Zero-padded four-digit year rendering, as pandas Period prints years. -/
def pad4 (n : ℕ) : String :=
  if n < 10 then "000" ++ toString n
  else if n < 100 then "00" ++ toString n
  else if n < 1000 then "0" ++ toString n
  else toString n

/-- Calendar timestamp. The pipeline only consumes the year and the month of
the purchase timestamp (year_month, quarter, year columns), so the embedding
records year, month and day. -/
structure Timestamp where
  year : ℕ
  month : ℕ
  day : ℕ
  deriving DecidableEq, Inhabited

/-- One row of olist_orders_dataset.csv after the pd.to_datetime pass
(data_pipeline.py lines 54-58): date columns are parsed and an unparsable
value is coerced to a missing value, modelled as none. -/
structure Order where
  order_id : String
  order_status : String
  customer_id : String
  order_purchase_timestamp : Option Timestamp
  order_delivered_customer_date : Option Timestamp
  order_estimated_delivery_date : Option Timestamp
  deriving DecidableEq, Inhabited

/-- One row of olist_order_items_dataset.csv. -/
structure OrderItem where
  order_id : String
  order_item_id : ℕ
  product_id : String
  seller_id : String
  price : ℚ
  freight_value : ℚ
  deriving DecidableEq, Inhabited

/-- One row of olist_order_payments_dataset.csv. -/
structure Payment where
  order_id : String
  payment_sequential : ℕ
  payment_type : String
  payment_installments : ℕ
  payment_value : ℚ
  deriving DecidableEq, Inhabited

/-- One row of olist_products_dataset.csv; the category may be missing. -/
structure Product where
  product_id : String
  product_category_name : Option String
  deriving DecidableEq, Inhabited

/-- One row of product_category_name_translation.csv. -/
structure Translation where
  product_category_name : String
  product_category_name_english : String
  deriving DecidableEq, Inhabited

/-- One row of olist_customers_dataset.csv. -/
structure Customer where
  customer_id : String
  customer_state : String
  customer_city : String
  deriving DecidableEq, Inhabited

/-- One row of olist_sellers_dataset.csv. -/
structure Seller where
  seller_id : String
  seller_state : String
  seller_city : String
  deriving DecidableEq, Inhabited

/-- delivered = orders[orders[order_status] == "delivered"]
(data_pipeline.py line 61, streamlit_app.py line 109). -/
def delivered (orders : List Order) : List Order :=
  orders.filter (fun o => o.order_status == "delivered")

/-- year_month column (line 65): purchase timestamp converted
to_period(M).astype(str). A missing timestamp renders as the string NaT,
which is what astype(str) produces for a missing period. -/
def yearMonthOf (o : Order) : String :=
  match o.order_purchase_timestamp with
  | some t => pad4 t.year ++ "-" ++ pad2 t.month
  | none => "NaT"

/-- quarter column (line 66): purchase timestamp converted
to_period(Q).astype(str), which pandas prints without a separator between
the year and the quarter marker. -/
def quarterOf (o : Order) : String :=
  match o.order_purchase_timestamp with
  | some t => pad4 t.year ++ "Q" ++ toString ((t.month - 1) / 3 + 1)
  | none => "NaT"

/-- year column (line 67): dt.year, missing for an unparsed timestamp. -/
def yearOf (o : Order) : Option ℕ :=
  o.order_purchase_timestamp.map (fun t => t.year)

/-- A line item after the two left merges of data_pipeline.py lines 70-74:
the category of the product (missing when the product is unknown or has no
category) and its English translation (missing when the category is missing
or has no translation row). -/
structure MergedItem where
  item : OrderItem
  product_category_name : Option String
  product_category_name_english : Option String
  deriving DecidableEq, Inhabited

/-- Category of the product referenced by an item: left merge with
products[[product_id, product_category_name]] on product_id. -/
def rawCategoryOf (products : List Product) (it : OrderItem) : Option String :=
  (products.find? (fun p => p.product_id == it.product_id)).bind
    (fun p => p.product_category_name)

/-- English name for a category: left merge with the translation table on
product_category_name. -/
def translationOf (translations : List Translation) (c : String) : Option String :=
  (translations.find? (fun t => t.product_category_name == c)).map
    (fun t => t.product_category_name_english)

/-- Items after the two left merges (lines 70-74), before fillna. -/
def items_merged (items : List OrderItem) (products : List Product)
    (translations : List Translation) : List MergedItem :=
  items.map (fun it =>
    { item := it
      product_category_name := rawCategoryOf products it
      product_category_name_english :=
        (rawCategoryOf products it).bind (translationOf translations) })

/-- Items after the fillna of line 75: a missing English category is replaced
by the literal string "other". -/
def items_enriched (items : List OrderItem) (products : List Product)
    (translations : List Translation) : List MergedItem :=
  (items_merged items products translations).map (fun e =>
    { e with product_category_name_english := some (e.product_category_name_english.getD "other") })

/-- Aggregated per-order payment record, the row schema of order_payments
(data_pipeline.py lines 78-82). -/
structure AggPayment where
  order_id : String
  payment_value : ℚ
  payment_type : String
  max_installments : ℕ
  deriving DecidableEq, Inhabited

/-- Rows of the payment table carrying a given order id, in input order. -/
def paymentsFor (payments : List Payment) (oid : String) : List Payment :=
  payments.filter (fun p => p.order_id == oid)

/-- Aggregation of one payment group: sum of payment_value, first
payment_type in input order, max of payment_installments. -/
def aggFor (payments : List Payment) (oid : String) : AggPayment :=
  { order_id := oid
    payment_value := ((paymentsFor payments oid).map (fun p => p.payment_value)).sum
    payment_type :=
      ((paymentsFor payments oid).head?.map (fun p => p.payment_type)).getD ""
    max_installments :=
      natMax ((paymentsFor payments oid).map (fun p => p.payment_installments)) }

/-- order_payments = payments.groupby(order_id).agg(...) (lines 78-82):
one aggregated row per distinct order id, keys sorted ascending as groupby
sorts them, each aggregator seeing the group rows in input order. -/
def order_payments (payments : List Payment) : List AggPayment :=
  (List.insertionSort strLeP (firstSeen (payments.map (fun p => p.order_id)))).map
    (aggFor payments)

/-- One row of the master financial table (data_pipeline.py lines 85-91):
a delivered order inner-joined with an enriched item, left-joined with the
aggregated payment, the customer and the seller. -/
structure MasterRow where
  ord : Order
  item : MergedItem
  pay : Option AggPayment
  cust : Option Customer
  sell : Option Seller
  deriving DecidableEq, Inhabited

/-- The master table before the analysis-window filter: inner join of the
delivered orders with the enriched items on order_id, then left joins with
order_payments, customers and sellers on their keys (lines 85-91). -/
def masterAll (orders : List Order) (items : List OrderItem) (products : List Product)
    (translations : List Translation) (payments : List Payment)
    (customers : List Customer) (sellers : List Seller) : List MasterRow :=
  (delivered orders).flatMap (fun o =>
    ((items_enriched items products translations).filter
        (fun e => e.item.order_id == o.order_id)).map (fun e =>
      { ord := o
        item := e
        pay := (order_payments payments).find? (fun a => a.order_id == o.order_id)
        cust := customers.find? (fun c => c.customer_id == o.customer_id)
        sell := sellers.find? (fun s => s.seller_id == e.item.seller_id) }))

/-- The analysis-window predicate of lines 94-97: year_month between the
strings 2017-01 and 2018-08 inclusive, compared as Python compares strings. -/
def inWindow (ym : String) : Bool := strLe "2017-01" ym && strLe ym "2018-08"

/-- The master financial table (lines 85-97): the joined table restricted to
the analysis window. -/
def master (orders : List Order) (items : List OrderItem) (products : List Product)
    (translations : List Translation) (payments : List Payment)
    (customers : List Customer) (sellers : List Seller) : List MasterRow :=
  (masterAll orders items products translations payments customers sellers).filter
    (fun r => inWindow (yearMonthOf r.ord))

/-- Order ids of the delivered orders, the key column of delivered[[order_id]]. -/
def deliveredIds (orders : List Order) : List String :=
  (delivered orders).map (fun o => o.order_id)

/-- payments.merge(delivered[[order_id]], on=order_id) (data_pipeline.py line
107 and line 126, streamlit_app.py line 178): the payment rows whose order is
delivered.  Order ids are unique in the orders table, so the inner merge
keeps each matching payment row once, in input order. -/
def pay_merged (payments : List Payment) (orders : List Order) : List Payment :=
  payments.filter (fun p => (deliveredIds orders).contains p.order_id)

/-- total_revenue (line 107): sum of payment_value over payments of delivered
orders. -/
def total_revenue (payments : List Payment) (orders : List Order) : ℚ :=
  ((pay_merged payments orders).map (fun p => p.payment_value)).sum

/-- total_orders (line 108): number of rows of the delivered table. -/
def total_orders (orders : List Order) : ℕ :=
  (delivered orders).length

/-- avg_order_value (data_pipeline.py line 109): total_revenue / total_orders
when total_orders is nonzero, else 0. -/
def avg_order_value (payments : List Payment) (orders : List Order) : ℚ :=
  if total_orders orders ≠ 0 then total_revenue payments orders / (total_orders orders : ℚ)
  else 0

/-- The inline average order value of streamlit_app.py line 184:
total_rev / delivered.shape[0] with no guard on the denominator.  When the
denominator is zero the float division produces NaN (0.0 / 0), which has no
rational value; the embedding returns none in that case and
some (total_revenue / total_orders) otherwise. -/
def appAvgOrderValue (payments : List Payment) (orders : List Order) : Option ℚ :=
  if total_orders orders = 0 then none
  else some (total_revenue payments orders / (total_orders orders : ℚ))

/-- Round half to even at a given denominator of 10: the rounding numpy and
pandas apply in Series.round(1). -/
def rhe (q : ℚ) : ℤ :=
  let f := ⌊q⌋
  if q - f < 1 / 2 then f
  else if q - f > 1 / 2 then f + 1
  else if 2 ∣ f then f else f + 1

/-- Series.round(1): round half to even at one decimal place. -/
def round1 (x : ℚ) : ℚ := (rhe (x * 10) : ℚ) / 10

/-- Group keys of a groupby over the master table: the distinct values of the
key column in first-appearance order, sorted ascending (groupby sorts keys);
rows where the key is missing are dropped, as groupby drops missing keys. -/
def groupKeys (key : MasterRow → Option String) (m : List MasterRow) : List String :=
  List.insertionSort strLeP (firstSeen (m.filterMap key))

/-- The rows of one group of a groupby over the master table. -/
def groupOf (key : MasterRow → Option String) (m : List MasterRow) (k : String) :
    List MasterRow :=
  m.filter (fun r => key r == some k)

/-- nunique of the order_id column of a group of master rows. -/
def ordersOf (g : List MasterRow) : ℕ :=
  (firstSeen (g.map (fun r => r.ord.order_id))).length

/-- nunique of the customer_id column of a group of master rows. -/
def customersOf (g : List MasterRow) : ℕ :=
  (firstSeen (g.map (fun r => r.ord.customer_id))).length

/-- Sum of the price column of a group of master rows. -/
def revenueOf (g : List MasterRow) : ℚ :=
  (g.map (fun r => r.item.item.price)).sum

/-- Grouping key: year_month of the order (always present as a string). -/
def ymKey (r : MasterRow) : Option String := some (yearMonthOf r.ord)

/-- Grouping key: quarter of the order (always present as a string). -/
def qKey (r : MasterRow) : Option String := some (quarterOf r.ord)

/-- Grouping key: English category of the item (always present after fillna). -/
def catKey (r : MasterRow) : Option String := r.item.product_category_name_english

/-- Grouping key: customer state, missing when the customer left join found
no match (groupby then drops the row). -/
def stateKey (r : MasterRow) : Option String := r.cust.map (fun c => c.customer_state)

/-- Row schema of the monthly revenue trend (data_pipeline.py lines 154-159). -/
structure MonthlyRow where
  year_month : String
  revenue : ℚ
  freight : ℚ
  orders : ℕ
  total : ℚ
  deriving DecidableEq, Inhabited

/-- monthly = master.groupby(year_month).agg(...) sorted ascending by
year_month, with total = revenue + freight (lines 154-159). -/
def monthly (m : List MasterRow) : List MonthlyRow :=
  (groupKeys ymKey m).map (fun k =>
    let g := groupOf ymKey m k
    let rev := revenueOf g
    let fr := (g.map (fun r => r.item.item.freight_value)).sum
    { year_month := k, revenue := rev, freight := fr, orders := ordersOf g,
      total := rev + fr })

/-- Row schema of the top-categories aggregate (lines 162-166). -/
structure CatRow where
  product_category_name_english : String
  revenue : ℚ
  orders : ℕ
  avg_price : ℚ
  deriving DecidableEq, Inhabited

/-- Descending-by-revenue comparison used by sort_values(revenue,
ascending=False) on the categories table. -/
def catRevDesc (a b : CatRow) : Prop := b.revenue ≤ a.revenue

instance : DecidableRel catRevDesc := fun a b => inferInstanceAs (Decidable (b.revenue ≤ a.revenue))

/-- The categories aggregate before sorting and truncation. -/
def categoriesAll (m : List MasterRow) : List CatRow :=
  (groupKeys catKey m).map (fun k =>
    let g := groupOf catKey m k
    { product_category_name_english := k, revenue := revenueOf g, orders := ordersOf g,
      avg_price := revenueOf g / (g.length : ℚ) })

/-- categories (lines 162-166): grouped by English category, sorted by revenue
descending, first 15 rows kept. -/
def categories (m : List MasterRow) : List CatRow :=
  (List.insertionSort catRevDesc (categoriesAll m)).take 15

/-- Row schema of the state aggregate (lines 185-189). -/
structure StateRow where
  customer_state : String
  revenue : ℚ
  orders : ℕ
  customers : ℕ
  deriving DecidableEq, Inhabited

/-- Descending-by-revenue comparison for the states table. -/
def stateRevDesc (a b : StateRow) : Prop := b.revenue ≤ a.revenue

instance : DecidableRel stateRevDesc := fun a b => inferInstanceAs (Decidable (b.revenue ≤ a.revenue))

/-- states (lines 185-189): grouped by customer_state, sorted by revenue
descending. -/
def states (m : List MasterRow) : List StateRow :=
  List.insertionSort stateRevDesc ((groupKeys stateKey m).map (fun k =>
    let g := groupOf stateKey m k
    { customer_state := k, revenue := revenueOf g, orders := ordersOf g,
      customers := customersOf g }))

/-- Row schema of the quarterly aggregate (lines 192-195). -/
structure QuarterRow where
  quarter : String
  revenue : ℚ
  orders : ℕ
  deriving DecidableEq, Inhabited

/-- quarterly (lines 192-195): grouped by quarter, sorted ascending by the
quarter string. -/
def quarterly (m : List MasterRow) : List QuarterRow :=
  (groupKeys qKey m).map (fun k =>
    let g := groupOf qKey m k
    { quarter := k, revenue := revenueOf g, orders := ordersOf g })

/-- pct_change times 100 rounded to one decimal (line 196) over a revenue
series: the entry at position 0 is missing (NaN, modelled none); at position
i+1 it is the relative change against position i, also missing when the
previous value is 0 (the float quotient is then not a finite number). -/
def growthAt (revs : List ℚ) (i : ℕ) : Option ℚ :=
  if i = 0 then none
  else
    match revs.get? (i - 1), revs.get? i with
    | some prev, some cur =>
        if prev = 0 then none else some (round1 ((cur - prev) / prev * 100))
    | _, _ => none

/-- The pct_change column as a list aligned with the revenue series. -/
def growthList (revs : List ℚ) : List (Option ℚ) :=
  (List.range revs.length).map (growthAt revs)

/-- growth_pct column of the quarterly aggregate (line 196). -/
def growth_pct (m : List MasterRow) : List (Option ℚ) :=
  growthList ((quarterly m).map (fun r => r.revenue))

/-- Row schema of the installments aggregate (lines 175-182). -/
structure InstRow where
  payment_installments : ℕ
  count : ℕ
  total : ℚ
  deriving DecidableEq, Inhabited

/-- Credit-card payment rows of delivered orders (line 176). -/
def ccPayments (payments : List Payment) (orders : List Order) : List Payment :=
  (pay_merged payments orders).filter (fun p => p.payment_type == "credit_card")

/-- installments (lines 175-182): credit-card payments grouped by
payment_installments (count of rows and sum of values), sorted ascending by
installment count, first 12 rows kept. -/
def installmentsTable (payments : List Payment) (orders : List Order) : List InstRow :=
  ((List.insertionSort (· ≤ ·)
      (firstSeen ((ccPayments payments orders).map (fun p => p.payment_installments)))).take 12).map
    (fun k =>
      let g := (ccPayments payments orders).filter (fun p => p.payment_installments == k)
      { payment_installments := k, count := g.length,
        total := (g.map (fun p => p.payment_value)).sum })

/-- The interactive installments aggregate (streamlit_app.py lines 283-285):
same grouping, but restricted to installment counts between 1 and 10 and
with no 12-row truncation. -/
def appInstallmentsTable (payments : List Payment) (orders : List Order) : List InstRow :=
  ((List.insertionSort (· ≤ ·)
      (firstSeen ((ccPayments payments orders).map (fun p => p.payment_installments)))).map
    (fun k =>
      let g := (ccPayments payments orders).filter (fun p => p.payment_installments == k)
      { payment_installments := k, count := g.length,
        total := (g.map (fun p => p.payment_value)).sum })).filter
    (fun row => 1 ≤ row.payment_installments && row.payment_installments ≤ 10)

/-- Raw CSV content: a list of rows of fields.  The loader contract only
concerns which files exist, so no further parsing is modelled here. -/
abbrev Csv : Type := List (List String)

/-- The eight raw tables the loader returns (data_pipeline.py lines 33-40). -/
structure RawTables where
  orders : Csv
  items : Csv
  payments : Csv
  reviews : Csv
  customers : Csv
  products : Csv
  sellers : Csv
  translations : Csv
  deriving DecidableEq

/-- A data directory: the files that exist and their contents. -/
abbrev FS : Type := String → Option Csv

/-- The eight paths the pipeline reads, in read order (lines 33-40). -/
def fileNames : List String :=
  ["data/olist_orders_dataset.csv",
   "data/olist_order_items_dataset.csv",
   "data/olist_order_payments_dataset.csv",
   "data/olist_order_reviews_dataset.csv",
   "data/olist_customers_dataset.csv",
   "data/olist_products_dataset.csv",
   "data/olist_sellers_dataset.csv",
   "data/product_category_name_translation.csv"]

/-- pd.read_csv of one path: the contents when the file exists, otherwise the
FileNotFoundError that CPython raises, whose message carries the path. -/
def readCsv (fs : FS) (name : String) : Except String Csv :=
  match fs name with
  | some t => Except.ok t
  | none => Except.error name

/-- The batch loader (data_pipeline.py lines 33-40): the eight reads run in
order at module top level with no handler, so the first missing file aborts
the whole run with an error naming that file, before any later stage and in
particular before the single JSON write of lines 249-251 can happen. -/
def loadTables (fs : FS) : Except String RawTables :=
  match fs "data/olist_orders_dataset.csv" with
  | none => Except.error "data/olist_orders_dataset.csv"
  | some o =>
    match fs "data/olist_order_items_dataset.csv" with
    | none => Except.error "data/olist_order_items_dataset.csv"
    | some i =>
      match fs "data/olist_order_payments_dataset.csv" with
      | none => Except.error "data/olist_order_payments_dataset.csv"
      | some p =>
        match fs "data/olist_order_reviews_dataset.csv" with
        | none => Except.error "data/olist_order_reviews_dataset.csv"
        | some r =>
          match fs "data/olist_customers_dataset.csv" with
          | none => Except.error "data/olist_customers_dataset.csv"
          | some c =>
            match fs "data/olist_products_dataset.csv" with
            | none => Except.error "data/olist_products_dataset.csv"
            | some pr =>
              match fs "data/olist_sellers_dataset.csv" with
              | none => Except.error "data/olist_sellers_dataset.csv"
              | some s =>
                match fs "data/product_category_name_translation.csv" with
                | none => Except.error "data/product_category_name_translation.csv"
                | some tr =>
                  Except.ok ⟨o, i, p, r, c, pr, s, tr⟩

/-- The message streamlit_app.py line 100 shows when any read raises
FileNotFoundError; it does not mention which file was missing. -/
def streamlitLoadMsg : String :=
  "Data files not found. Please ensure the CSV files are in the `data/` folder."

/-- The interactive loader (streamlit_app.py lines 88-101 together with the
st.stop guard of lines 130-134): if every file is present the tables load,
otherwise the run aborts with the fixed message of line 100. -/
def streamlitLoad (fs : FS) : Except String RawTables :=
  match loadTables fs with
  | Except.ok t => Except.ok t
  | Except.error _ => Except.error streamlitLoadMsg

/-- Whether the first list occurs as a contiguous run at the start of the
second. -/
def startsWithChars : List Char → List Char → Bool
  | [], _ => true
  | _ :: _, [] => false
  | a :: as, b :: bs => a == b && startsWithChars as bs

/-- Whether the first list occurs as a contiguous run anywhere in the
second. -/
def hasRunChars (n : List Char) : List Char → Bool
  | [] => n.isEmpty
  | b :: bs => startsWithChars n (b :: bs) || hasRunChars n bs

/-- Whether one string occurs inside another, used to state that an error
message names (or fails to name) a file path. -/
def strContains (hay needle : String) : Bool := hasRunChars needle.toList hay.toList

/-- Modelled from the spec (claim C8 wording): the 1-based quarter of a
month, months 1-3 giving 1, 4-6 giving 2, 7-9 giving 3 and 10-12 giving 4. -/
def claimQuarter (m : ℕ) : ℕ :=
  if m ≤ 3 then 1 else if m ≤ 6 then 2 else if m ≤ 9 then 3 else 4

/-- Example orders: two delivered orders inside the analysis window (February
and May 2017), one delivered order with an unparsable purchase timestamp,
one order that is not delivered. -/
def exOrders : List Order :=
  [{ order_id := "o1", order_status := "delivered", customer_id := "c1",
     order_purchase_timestamp := some ⟨2017, 2, 5⟩,
     order_delivered_customer_date := some ⟨2017, 2, 20⟩,
     order_estimated_delivery_date := some ⟨2017, 3, 1⟩ },
   { order_id := "o2", order_status := "delivered", customer_id := "c2",
     order_purchase_timestamp := some ⟨2017, 5, 10⟩,
     order_delivered_customer_date := some ⟨2017, 6, 2⟩,
     order_estimated_delivery_date := some ⟨2017, 5, 30⟩ },
   { order_id := "o3", order_status := "delivered", customer_id := "c3",
     order_purchase_timestamp := none,
     order_delivered_customer_date := none,
     order_estimated_delivery_date := none },
   { order_id := "o4", order_status := "shipped", customer_id := "c4",
     order_purchase_timestamp := some ⟨2017, 7, 1⟩,
     order_delivered_customer_date := none,
     order_estimated_delivery_date := some ⟨2017, 8, 1⟩ }]

/-- Example items: one item per delivered order plus one item for the
undelivered order. -/
def exItems : List OrderItem :=
  [{ order_id := "o1", order_item_id := 1, product_id := "p1", seller_id := "s1",
     price := 100, freight_value := 10 },
   { order_id := "o2", order_item_id := 1, product_id := "p1", seller_id := "s1",
     price := 150, freight_value := 15 },
   { order_id := "o3", order_item_id := 1, product_id := "p2", seller_id := "s1",
     price := 30, freight_value := 3 },
   { order_id := "o4", order_item_id := 1, product_id := "p1", seller_id := "s1",
     price := 40, freight_value := 4 }]

/-- Example payments: order o1 pays with two rows (credit card then voucher),
order o2 with one boleto row. -/
def exPayments : List Payment :=
  [{ order_id := "o1", payment_sequential := 1, payment_type := "credit_card",
     payment_installments := 2, payment_value := 70 },
   { order_id := "o1", payment_sequential := 2, payment_type := "voucher",
     payment_installments := 1, payment_value := 40 },
   { order_id := "o2", payment_sequential := 1, payment_type := "boleto",
     payment_installments := 1, payment_value := 165 }]

/-- Example products: p1 has a translated category, p2 has no category. -/
def exProducts : List Product :=
  [{ product_id := "p1", product_category_name := some "informatica_acessorios" },
   { product_id := "p2", product_category_name := none }]

/-- Example translation table. -/
def exTranslations : List Translation :=
  [{ product_category_name := "informatica_acessorios",
     product_category_name_english := "computers_accessories" }]

/-- Example customers. -/
def exCustomers : List Customer :=
  [{ customer_id := "c1", customer_state := "SP", customer_city := "Sao Paulo" },
   { customer_id := "c2", customer_state := "RJ", customer_city := "Rio de Janeiro" }]

/-- Example sellers. -/
def exSellers : List Seller :=
  [{ seller_id := "s1", seller_state := "SP", seller_city := "Campinas" }]

/-- The master table of the example fixture. -/
def exMaster : List MasterRow :=
  master exOrders exItems exProducts exTranslations exPayments exCustomers exSellers

theorem mem_groupKeys (key : MasterRow → Option String) (m : List MasterRow) (k : String) :
    k ∈ groupKeys key m ↔ k ∈ m.filterMap key := by
  simp [groupKeys, List.mem_insertionSort, mem_firstSeen]

theorem ordersOf_eq_card (g : List MasterRow) :
    ordersOf g = ((g.map (fun r => r.ord.order_id)).toFinset).card :=
  length_firstSeen_eq_card _

theorem ordersOf_le_length (g : List MasterRow) : ordersOf g ≤ g.length :=
  Nat.le_trans (length_firstSeen_le _) (by simp)

/-- Claim C5: total_orders counts exactly the raw orders whose status is the
literal string "delivered" (case-sensitive exact match), over the whole
input set; replacing every purchase timestamp by anything else leaves it
unchanged, so it is not restricted to the analysis window. -/
theorem claim5_total_orders (orders : List Order) :
    total_orders orders = orders.countP (fun o => o.order_status == "delivered") ∧
    ∀ f : Option Timestamp → Option Timestamp,
      total_orders (orders.map
        (fun o => { o with order_purchase_timestamp := f o.order_purchase_timestamp })) =
      total_orders orders := by
  constructor
  · rw [List.countP_eq_length_filter]
    rfl
  · intro f
    simp only [total_orders, delivered, List.filter_map, List.length_map]
    rfl

/-- Claim C1: for every order id occurring in the payment table, order_payments
holds an aggregated row for it, any row of order_payments carrying that order
id has payment_value equal to the sum of payment_value over every payment row
sharing the order id (never a single row's value), payment_type equal to the
payment_type of the first such row in input order, and max_installments an
upper bound of, and attained by, the installment counts of those rows. -/
theorem claim1_aggregated_payment (payments : List Payment) (oid : String)
    (h : oid ∈ payments.map (fun p => p.order_id)) :
    aggFor payments oid ∈ order_payments payments ∧
    ∀ row ∈ order_payments payments, row.order_id = oid →
      row.payment_value = ((paymentsFor payments oid).map (fun p => p.payment_value)).sum ∧
      (paymentsFor payments oid).head?.map (fun p => p.payment_type) = some row.payment_type ∧
      (∀ p ∈ payments, p.order_id = oid → p.payment_installments ≤ row.max_installments) ∧
      row.max_installments ∈ (paymentsFor payments oid).map (fun p => p.payment_installments) := by
  have hkeys : oid ∈ List.insertionSort strLeP (firstSeen (payments.map (fun p => p.order_id))) := by
    rw [List.mem_insertionSort, mem_firstSeen]
    exact h
  obtain ⟨p₀, hp₀, hp₀id⟩ := List.mem_map.mp h
  have hp₀mem : p₀ ∈ paymentsFor payments oid := by
    rw [paymentsFor, List.mem_filter]
    exact ⟨hp₀, by simp [hp₀id]⟩
  have hne : paymentsFor payments oid ≠ [] := List.ne_nil_of_mem hp₀mem
  constructor
  · unfold order_payments
    exact List.mem_map_of_mem _ hkeys
  · intro row hrow hrowid
    obtain ⟨k, _, hk2⟩ := List.mem_map.mp hrow
    subst hk2
    have hkoid : oid = k := hrowid.symm
    subst hkoid
    refine ⟨rfl, ?_, ?_, ?_⟩
    · cases hq : paymentsFor payments oid with
      | nil => exact absurd hq hne
      | cons q qs => simp [aggFor, hq]
    · intro p hp hpid
      have hmem : p.payment_installments ∈
          (paymentsFor payments oid).map (fun p => p.payment_installments) := by
        refine List.mem_map_of_mem _ ?_
        rw [paymentsFor, List.mem_filter]
        exact ⟨hp, by simp [hpid]⟩
      exact le_natMax_of_mem hmem
    · refine natMax_mem ?_
      intro hmap
      exact hne (List.map_eq_nil_iff.mp hmap)

/-- Witness for claim C1 on the concrete fixture: order o1 has two payment
rows (70 on credit card with 2 installments, then 40 on voucher with 1), and
the aggregated row sums to 110, keeps credit_card and max installments 2. -/
theorem claim1_witness :
    aggFor exPayments "o1" ∈ order_payments exPayments ∧
    (aggFor exPayments "o1").payment_value = 110 ∧
    (aggFor exPayments "o1").payment_type = "credit_card" ∧
    (aggFor exPayments "o1").max_installments = 2 :=
  ⟨(claim1_aggregated_payment exPayments "o1" (by decide)).1,
   by with_unfolding_all decide, by decide, by decide⟩

/-- Claim C2: every row of the master table has year_month between 2017-01 and
2018-08 inclusive under code-point string comparison; in particular a
delivered order whose purchase timestamp failed to parse (its year_month is
the string NaT, not of the YYYY-MM form) contributes no master row, and every
monthly grouping key drawn from the master table also lies in the window. -/
theorem claim2_master_window (orders : List Order) (items : List OrderItem)
    (products : List Product) (translations : List Translation) (payments : List Payment)
    (customers : List Customer) (sellers : List Seller) :
    (∀ r ∈ master orders items products translations payments customers sellers,
       strLe "2017-01" (yearMonthOf r.ord) = true ∧
       strLe (yearMonthOf r.ord) "2018-08" = true ∧
       r.ord.order_purchase_timestamp.isSome = true) ∧
    (∀ k ∈ groupKeys ymKey (master orders items products translations payments customers sellers),
       strLe "2017-01" k = true ∧ strLe k "2018-08" = true) := by
  have hmain : ∀ r ∈ master orders items products translations payments customers sellers,
      strLe "2017-01" (yearMonthOf r.ord) = true ∧ strLe (yearMonthOf r.ord) "2018-08" = true ∧
      r.ord.order_purchase_timestamp.isSome = true := by
    intro r hr
    simp only [master, List.mem_filter] at hr
    have hw := hr.2
    rw [inWindow, Bool.and_eq_true] at hw
    refine ⟨hw.1, hw.2, ?_⟩
    cases hp : r.ord.order_purchase_timestamp with
    | some t => rfl
    | none =>
      exfalso
      have hnat : yearMonthOf r.ord = "NaT" := by simp [yearMonthOf, hp]
      rw [hnat] at hw
      exact absurd hw.2 (by decide)
  refine ⟨hmain, ?_⟩
  intro k hk
  rw [mem_groupKeys, List.mem_filterMap] at hk
  obtain ⟨r, hr, hkey⟩ := hk
  have h := hmain r hr
  have hks : k = yearMonthOf r.ord := (Option.some.inj hkey).symm
  rw [hks]
  exact ⟨h.1, h.2.1⟩

/-- Witness for claim C2: the first row of the example master table is inside
the window and has a parsed purchase timestamp. -/
theorem claim2_witness :
    strLe "2017-01" (yearMonthOf ((exMaster.getD 0 default).ord)) = true ∧
    strLe (yearMonthOf ((exMaster.getD 0 default).ord)) "2018-08" = true ∧
    ((exMaster.getD 0 default).ord).order_purchase_timestamp.isSome = true :=
  (claim2_master_window exOrders exItems exProducts exTranslations exPayments exCustomers
    exSellers).1 (exMaster.getD 0 default) (by with_unfolding_all decide)

theorem item_mem_of_mem_masterAll {orders : List Order} {items : List OrderItem}
    {products : List Product} {translations : List Translation} {payments : List Payment}
    {customers : List Customer} {sellers : List Seller} {r : MasterRow}
    (h : r ∈ masterAll orders items products translations payments customers sellers) :
    r.item ∈ items_enriched items products translations := by
  simp only [masterAll, List.mem_flatMap, List.mem_map, List.mem_filter] at h
  obtain ⟨o, _, e, ⟨he, _⟩, hr⟩ := h
  rw [← hr]
  exact he

/-- The composed effect of the two left merges and the fillna on one item
row: category from the product lookup, English name from the translation
lookup with "other" filled in for a missing value. -/
def enrichOne (products : List Product) (translations : List Translation)
    (it : OrderItem) : MergedItem :=
  { item := it
    product_category_name := rawCategoryOf products it
    product_category_name_english :=
      some (((rawCategoryOf products it).bind (translationOf translations)).getD "other") }

theorem items_enriched_eq (items : List OrderItem) (products : List Product)
    (translations : List Translation) :
    items_enriched items products translations = items.map (enrichOne products translations) := by
  simp only [items_enriched, items_merged, List.map_map]
  rfl

/-- Claim C3: every row of the enriched items table has a present English
category; an item whose product has no category (or no matching product row)
or whose category has no translation row gets exactly the string "other";
and every master row carries its item from the enriched table, with the
already-filled category, so no downstream grouping on category sees a
missing key. -/
theorem claim3_category_other (items : List OrderItem) (products : List Product)
    (translations : List Translation) :
    (∀ e ∈ items_enriched items products translations,
       e.product_category_name_english.isSome = true) ∧
    (∀ e ∈ items_enriched items products translations,
       rawCategoryOf products e.item = none →
       e.product_category_name_english = some "other") ∧
    (∀ e ∈ items_enriched items products translations, ∀ c,
       rawCategoryOf products e.item = some c → translationOf translations c = none →
       e.product_category_name_english = some "other") ∧
    (∀ (orders : List Order) (payments : List Payment) (customers : List Customer)
       (sellers : List Seller),
       ∀ r ∈ master orders items products translations payments customers sellers,
         r.item ∈ items_enriched items products translations ∧
         r.item.product_category_name_english.isSome = true) := by
  have hshape : ∀ e ∈ items_enriched items products translations,
      ∃ it ∈ items, e = enrichOne products translations it := by
    intro e he
    rw [items_enriched_eq] at he
    obtain ⟨it, hit, he⟩ := List.mem_map.mp he
    exact ⟨it, hit, he.symm⟩
  have h1 : ∀ e ∈ items_enriched items products translations,
      e.product_category_name_english.isSome = true := by
    intro e he
    obtain ⟨it, _, rfl⟩ := hshape e he
    rfl
  refine ⟨h1, ?_, ?_, ?_⟩
  · intro e he hraw
    obtain ⟨it, _, rfl⟩ := hshape e he
    simp only [enrichOne] at hraw
    simp [enrichOne, hraw]
  · intro e he c hraw htr
    obtain ⟨it, _, rfl⟩ := hshape e he
    simp only [enrichOne] at hraw
    simp [enrichOne, hraw, htr]
  · intro orders payments customers sellers r hr
    simp only [master, List.mem_filter] at hr
    have hmem := item_mem_of_mem_masterAll hr.1
    exact ⟨hmem, h1 _ hmem⟩

/-- Witness for claim C3: the third enriched example item belongs to product
p2, which has no category, and its English category is exactly "other". -/
theorem claim3_witness :
    rawCategoryOf exProducts
      (((items_enriched exItems exProducts exTranslations).getD 2 default).item) = none ∧
    ((items_enriched exItems exProducts exTranslations).getD 2
        default).product_category_name_english = some "other" :=
  ⟨by decide,
   (claim3_category_other exItems exProducts exTranslations).2.1
     ((items_enriched exItems exProducts exTranslations).getD 2 default)
     (by with_unfolding_all decide) (by decide)⟩

/-- Claim C4 counterexample: on the empty input the delivered set is empty,
the batch pipeline guards the division and yields 0, but the interactive
entry point divides total_rev by delivered.shape[0] with no guard, computing
0.0 / 0, which is NaN rather than the claimed 0 (the embedding has no
rational value for it), so avg_order_value does not equal 0 in that entry
point. -/
theorem claim4_counterexample :
    total_orders ([] : List Order) = 0 ∧
    avg_order_value ([] : List Payment) ([] : List Order) = 0 ∧
    appAvgOrderValue ([] : List Payment) ([] : List Order) = none ∧
    appAvgOrderValue ([] : List Payment) ([] : List Order) ≠ some 0 := by
  refine ⟨rfl, by decide, rfl, by decide⟩

/-- Claim C4 amended: avg_order_value equals total_revenue / total_orders in
both entry points whenever total_orders is positive; when total_orders is 0
the batch pipeline returns 0 without a division fault, while the interactive
entry point performs the division unguarded and produces NaN (no numeric
value) instead of 0. -/
theorem claim4_amended_avg_order_value (payments : List Payment) (orders : List Order) :
    (total_orders orders ≠ 0 →
       avg_order_value payments orders = total_revenue payments orders / (total_orders orders : ℚ) ∧
       appAvgOrderValue payments orders =
         some (total_revenue payments orders / (total_orders orders : ℚ))) ∧
    (total_orders orders = 0 →
       avg_order_value payments orders = 0 ∧ appAvgOrderValue payments orders = none) := by
  constructor <;> intro h <;> simp [avg_order_value, appAvgOrderValue, h]

/-- Witness for claim C4: the example fixture has 3 delivered orders and both
entry points return total_revenue / 3. -/
theorem claim4_witness :
    avg_order_value exPayments exOrders =
      total_revenue exPayments exOrders / (total_orders exOrders : ℚ) ∧
    appAvgOrderValue exPayments exOrders =
      some (total_revenue exPayments exOrders / (total_orders exOrders : ℚ)) :=
  (claim4_amended_avg_order_value exPayments exOrders).1 (by decide)

theorem quarterly_map_quarter (m : List MasterRow) :
    (quarterly m).map (fun r => r.quarter) = groupKeys qKey m := by
  rw [quarterly, List.map_map]
  exact List.map_id _

theorem growthList_getq (revs : List ℚ) (i : ℕ) (h : i < revs.length) :
    (growthList revs).get? i = some (growthAt revs i) := by
  rw [growthList, List.get?_map, List.get?_range h]
  rfl

theorem growthAt_succ (revs : List ℚ) (i : ℕ) (prev cur : ℚ)
    (h1 : revs.get? i = some prev) (h2 : revs.get? (i + 1) = some cur) (h0 : prev ≠ 0) :
    growthAt revs (i + 1) = some (round1 ((cur - prev) / prev * 100)) := by
  unfold growthAt
  rw [List.get?_eq_getElem?] at h1 h2
  simp [Nat.add_sub_cancel, h1, h2, h0]

/-- Claim C6: the quarterly aggregate is sorted ascending by its quarter
string; the growth value of the first quarter is missing (NaN); and the
growth value of every later quarter whose predecessor has nonzero revenue is
the relative revenue change against the previous quarter, times 100, rounded
to one decimal. -/
theorem claim6_quarterly_growth (m : List MasterRow) :
    List.Sorted strLeP ((quarterly m).map (fun r => r.quarter)) ∧
    (quarterly m ≠ [] → (growth_pct m).get? 0 = some none) ∧
    (∀ (i : ℕ) (prev cur : ℚ), i + 1 < (quarterly m).length →
       ((quarterly m).get? i).map (fun r => r.revenue) = some prev →
       ((quarterly m).get? (i + 1)).map (fun r => r.revenue) = some cur →
       prev ≠ 0 →
       (growth_pct m).get? (i + 1) = some (some (round1 ((cur - prev) / prev * 100)))) := by
  refine ⟨?_, ?_, ?_⟩
  · rw [quarterly_map_quarter, groupKeys]
    exact List.sorted_insertionSort strLeP _
  · intro hne
    have hlen : 0 < ((quarterly m).map (fun r => r.revenue)).length := by
      simpa using List.length_pos.mpr hne
    rw [growth_pct, growthList_getq _ _ hlen]
    rfl
  · intro i prev cur hi h1 h2 h0
    have hlen : i + 1 < ((quarterly m).map (fun r => r.revenue)).length := by simpa using hi
    have h1m : ((quarterly m).map (fun r => r.revenue)).get? i = some prev := by
      rw [List.get?_map]; exact h1
    have h2m : ((quarterly m).map (fun r => r.revenue)).get? (i + 1) = some cur := by
      rw [List.get?_map]; exact h2
    rw [growth_pct, growthList_getq _ _ hlen, growthAt_succ _ _ _ _ h1m h2m h0]

/-- Witness for claim C6: the example master table has quarters 2017Q1 (100)
and 2017Q2 (150); the first growth entry is missing and the second is the
rounded 50 percent increase. -/
theorem claim6_witness :
    (growth_pct exMaster).get? 0 = some none ∧
    (growth_pct exMaster).get? 1 = some (some (round1 ((150 - 100) / 100 * 100))) ∧
    round1 ((150 - 100) / 100 * 100) = (50 : ℚ) :=
  ⟨(claim6_quarterly_growth exMaster).2.1 (by with_unfolding_all decide),
   (claim6_quarterly_growth exMaster).2.2 0 100 150 (by with_unfolding_all decide)
     (by with_unfolding_all decide) (by with_unfolding_all decide) (by decide),
   by with_unfolding_all decide⟩

/-- A delivered order with a single credit-card payment of 13 installments,
used to exhibit an installment count outside 1-12 in the aggregate. -/
def exOrders13 : List Order :=
  [{ order_id := "o9", order_status := "delivered", customer_id := "c9",
     order_purchase_timestamp := some ⟨2017, 3, 1⟩,
     order_delivered_customer_date := none,
     order_estimated_delivery_date := none }]

/-- The single 13-installment credit-card payment of that order. -/
def exPayments13 : List Payment :=
  [{ order_id := "o9", payment_sequential := 1, payment_type := "credit_card",
     payment_installments := 13, payment_value := 10 }]

/-- Claim C7 counterexample: with one credit-card payment of 13 installments
the aggregate consists of exactly the row for installment count 13, which
lies outside 1-12, and no rows for counts 1 through 12 appear; the code
keeps the first 12 rows of whatever counts are present, it does not pin the
counts to 1 through 12. -/
theorem claim7_counterexample :
    (installmentsTable exPayments13 exOrders13).map (fun r => r.payment_installments) = [13] ∧
    13 ∉ List.range' 1 12 := by
  constructor
  · with_unfolding_all decide
  · decide

/-- Claim C7 amended: the installments aggregate lists the at most 12
smallest distinct installment counts present among credit-card payments of
delivered orders, sorted ascending, each with the row count and value sum of
its group; counts outside 1-12 can appear when present in the data.  The
interactive entry point instead keeps exactly the counts between 1 and 10. -/
theorem claim7_amended_installments (payments : List Payment) (orders : List Order) :
    List.Sorted (· ≤ ·)
      ((installmentsTable payments orders).map (fun r => r.payment_installments)) ∧
    (installmentsTable payments orders).length ≤ 12 ∧
    (∀ row ∈ installmentsTable payments orders,
       row.payment_installments ∈
         (ccPayments payments orders).map (fun p => p.payment_installments) ∧
       row.count = ((ccPayments payments orders).filter
         (fun p => p.payment_installments == row.payment_installments)).length ∧
       row.total = (((ccPayments payments orders).filter
         (fun p => p.payment_installments == row.payment_installments)).map
           (fun p => p.payment_value)).sum) ∧
    (∀ row ∈ appInstallmentsTable payments orders,
       1 ≤ row.payment_installments ∧ row.payment_installments ≤ 10) := by
  have hmap : (installmentsTable payments orders).map (fun r => r.payment_installments) =
      (List.insertionSort (· ≤ ·)
        (firstSeen ((ccPayments payments orders).map (fun p => p.payment_installments)))).take 12 := by
    rw [installmentsTable, List.map_map]
    exact List.map_id _
  refine ⟨?_, ?_, ?_, ?_⟩
  · rw [hmap]
    exact List.Pairwise.sublist (List.take_sublist _ _)
      (List.sorted_insertionSort (· ≤ ·) _)
  · have := congrArg List.length hmap
    rw [List.length_map] at this
    rw [this]
    exact Nat.le_trans (List.length_take_le _ _) (Nat.le_refl _)
  · intro row hrow
    rw [installmentsTable] at hrow
    obtain ⟨k, hk, hkrow⟩ := List.mem_map.mp hrow
    have hkmem : k ∈ (ccPayments payments orders).map (fun p => p.payment_installments) := by
      have h1 : k ∈ List.insertionSort (· ≤ ·)
          (firstSeen ((ccPayments payments orders).map (fun p => p.payment_installments))) :=
        (List.take_sublist _ _).mem hk
      rw [List.mem_insertionSort, mem_firstSeen] at h1
      exact h1
    rw [← hkrow]
    exact ⟨hkmem, rfl, rfl⟩
  · intro row hrow
    rw [appInstallmentsTable, List.mem_filter] at hrow
    have hb := hrow.2
    rw [Bool.and_eq_true] at hb
    constructor
    · exact of_decide_eq_true hb.1
    · exact of_decide_eq_true hb.2

/-- Witness for claim C7: on the main fixture the aggregate has the single
row for 2 installments (one row, total 70), within the 12-row bound. -/
theorem claim7_witness :
    (installmentsTable exPayments exOrders).length ≤ 12 ∧
    2 ∈ (ccPayments exPayments exOrders).map (fun p => p.payment_installments) :=
  ⟨(claim7_amended_installments exPayments exOrders).2.1,
   ((claim7_amended_installments exPayments exOrders).2.2.1
     ((installmentsTable exPayments exOrders).getD 0 default)
     (by with_unfolding_all decide)).1⟩

/-- A delivered order purchased in February 2017, used to exhibit the exact
quarter string the code derives. -/
def exDelivOrder : Order :=
  { order_id := "o1", order_status := "delivered", customer_id := "c1",
    order_purchase_timestamp := some ⟨2017, 2, 5⟩,
    order_delivered_customer_date := none,
    order_estimated_delivery_date := none }

/-- Claim C8 counterexample: the quarter derived for a February 2017 purchase
is the string 2017Q1, with no separator between the year and the quarter
marker, so it is not of the claimed YYYY-Q# shape (which would read
2017-Q1); the interactive entry point confirms the pandas format by
comparing quarter values against the literal 2017Q1. -/
theorem claim8_counterexample :
    quarterOf exDelivOrder = "2017Q1" ∧ quarterOf exDelivOrder ≠ "2017-Q1" := by
  constructor
  · decide
  · decide

/-- Claim C8 amended: for every delivered order with a parsable purchase
timestamp whose month is a calendar month, year_month is the zero-padded
YYYY-MM truncation of the purchase timestamp, and quarter is the zero-padded
year followed immediately by Q and the 1-based quarter of the month (months
1-3 give 1, 4-6 give 2, 7-9 give 3, 10-12 give 4), with no separator. -/
theorem claim8_amended_time_columns (o : Order) (t : Timestamp)
    (_hd : o.order_status = "delivered") (hp : o.order_purchase_timestamp = some t)
    (h1 : 1 ≤ t.month) (h2 : t.month ≤ 12) :
    yearMonthOf o = pad4 t.year ++ "-" ++ pad2 t.month ∧
    quarterOf o = pad4 t.year ++ "Q" ++ toString (claimQuarter t.month) := by
  constructor
  · simp [yearMonthOf, hp]
  · have hq : (t.month - 1) / 3 + 1 = claimQuarter t.month := by
      unfold claimQuarter
      split_ifs <;> omega
    simp [quarterOf, hp, hq]

/-- Witness for claim C8: the February 2017 delivered order gets year_month
2017-02 and quarter 2017Q1. -/
theorem claim8_witness :
    (yearMonthOf exDelivOrder = pad4 2017 ++ "-" ++ pad2 2 ∧
     quarterOf exDelivOrder = pad4 2017 ++ "Q" ++ toString (claimQuarter 2)) ∧
    pad4 2017 ++ "-" ++ pad2 2 = "2017-02" :=
  ⟨claim8_amended_time_columns exDelivOrder ⟨2017, 2, 5⟩ rfl rfl (by decide) (by decide),
   by decide⟩

/-- A data directory in which every expected file is present (with empty
contents, which the loader contract does not look at). -/
def exFS : FS := fun n => if fileNames.contains n then some [] else none

/-- Claim C9 counterexample: with every file missing, the batch loader
aborts naming the first missing file, but the interactive loader aborts
with a fixed message that does not contain the missing file's path, so the
failure does not name the missing file in that entry point. -/
theorem claim9_counterexample :
    loadTables (fun _ => none) = Except.error "data/olist_orders_dataset.csv" ∧
    streamlitLoad (fun _ => none) = Except.error streamlitLoadMsg ∧
    strContains streamlitLoadMsg "data/olist_orders_dataset.csv" = false := by
  refine ⟨rfl, rfl, by decide⟩

/-- Claim C9 amended: when the batch loader fails it fails with the error of
the first missing expected file, carrying exactly that path, and the run
produces no output value at all (so no partial JSON); when all eight files
are present it returns the eight raw tables read from the directory; the
interactive loader, however, aborts with a fixed message that names none of
the files. -/
theorem claim9_amended_loader (fs : FS) :
    (∀ name, loadTables fs = Except.error name → name ∈ fileNames ∧ fs name = none) ∧
    ((∀ n ∈ fileNames, (fs n).isSome = true) →
       loadTables fs = Except.ok
         { orders := (fs "data/olist_orders_dataset.csv").getD []
           items := (fs "data/olist_order_items_dataset.csv").getD []
           payments := (fs "data/olist_order_payments_dataset.csv").getD []
           reviews := (fs "data/olist_order_reviews_dataset.csv").getD []
           customers := (fs "data/olist_customers_dataset.csv").getD []
           products := (fs "data/olist_products_dataset.csv").getD []
           sellers := (fs "data/olist_sellers_dataset.csv").getD []
           translations := (fs "data/product_category_name_translation.csv").getD [] }) ∧
    (∀ msg, streamlitLoad fs = Except.error msg →
       msg = streamlitLoadMsg ∧ ∀ n ∈ fileNames, strContains msg n = false) := by
  refine ⟨?_, ?_, ?_⟩
  · intro name h
    unfold loadTables at h
    repeat' split at h
    all_goals first
      | (cases h; exact ⟨by decide, by assumption⟩)
      | cases h
  · intro hall
    have h1 := hall "data/olist_orders_dataset.csv" (by decide)
    have h2 := hall "data/olist_order_items_dataset.csv" (by decide)
    have h3 := hall "data/olist_order_payments_dataset.csv" (by decide)
    have h4 := hall "data/olist_order_reviews_dataset.csv" (by decide)
    have h5 := hall "data/olist_customers_dataset.csv" (by decide)
    have h6 := hall "data/olist_products_dataset.csv" (by decide)
    have h7 := hall "data/olist_sellers_dataset.csv" (by decide)
    have h8 := hall "data/product_category_name_translation.csv" (by decide)
    rw [Option.isSome_iff_exists] at h1 h2 h3 h4 h5 h6 h7 h8
    obtain ⟨o, ho⟩ := h1
    obtain ⟨i, hi⟩ := h2
    obtain ⟨p, hp⟩ := h3
    obtain ⟨r, hr⟩ := h4
    obtain ⟨c, hc⟩ := h5
    obtain ⟨pr, hpr⟩ := h6
    obtain ⟨s, hs⟩ := h7
    obtain ⟨tr, htr⟩ := h8
    unfold loadTables
    rw [ho, hi, hp, hr, hc, hpr, hs, htr]
    rfl
  · intro msg h
    unfold streamlitLoad at h
    split at h
    · cases h
    · cases h
      refine ⟨rfl, ?_⟩
      intro n hn
      fin_cases hn <;> decide

/-- Witness for claim C9: on a directory containing all eight files the
batch loader returns the eight raw tables. -/
theorem claim9_witness :
    loadTables exFS = Except.ok
      { orders := (exFS "data/olist_orders_dataset.csv").getD []
        items := (exFS "data/olist_order_items_dataset.csv").getD []
        payments := (exFS "data/olist_order_payments_dataset.csv").getD []
        reviews := (exFS "data/olist_order_reviews_dataset.csv").getD []
        customers := (exFS "data/olist_customers_dataset.csv").getD []
        products := (exFS "data/olist_products_dataset.csv").getD []
        sellers := (exFS "data/olist_sellers_dataset.csv").getD []
        translations := (exFS "data/product_category_name_translation.csv").getD [] } :=
  (claim9_amended_loader exFS).2.1 (by decide)

/-- Claim C10: in each grouped aggregate over the master table (monthly, top
categories, states, quarterly) the orders measure of a row is the number of
distinct order ids of its group (nunique), so an order contributing several
item rows counts once per group, and the measure never exceeds the row count
of the group. -/
theorem claim10_distinct_orders (orders : List Order) (items : List OrderItem)
    (products : List Product) (translations : List Translation) (payments : List Payment)
    (customers : List Customer) (sellers : List Seller) (m : List MasterRow)
    (_hm : m = master orders items products translations payments customers sellers) :
    (∀ row ∈ monthly m,
       row.orders =
         ((groupOf ymKey m row.year_month).map (fun r => r.ord.order_id)).toFinset.card ∧
       row.orders ≤ (groupOf ymKey m row.year_month).length) ∧
    (∀ row ∈ categories m,
       row.orders = ((groupOf catKey m row.product_category_name_english).map
         (fun r => r.ord.order_id)).toFinset.card ∧
       row.orders ≤ (groupOf catKey m row.product_category_name_english).length) ∧
    (∀ row ∈ states m,
       row.orders =
         ((groupOf stateKey m row.customer_state).map (fun r => r.ord.order_id)).toFinset.card ∧
       row.orders ≤ (groupOf stateKey m row.customer_state).length) ∧
    (∀ row ∈ quarterly m,
       row.orders =
         ((groupOf qKey m row.quarter).map (fun r => r.ord.order_id)).toFinset.card ∧
       row.orders ≤ (groupOf qKey m row.quarter).length) := by
  refine ⟨?_, ?_, ?_, ?_⟩
  · intro row hrow
    rw [monthly] at hrow
    obtain ⟨k, _, hkrow⟩ := List.mem_map.mp hrow
    subst hkrow
    exact ⟨ordersOf_eq_card _, ordersOf_le_length _⟩
  · intro row hrow
    rw [categories] at hrow
    have h1 : row ∈ List.insertionSort catRevDesc (categoriesAll m) :=
      (List.take_sublist _ _).mem hrow
    rw [List.mem_insertionSort, categoriesAll] at h1
    obtain ⟨k, _, hkrow⟩ := List.mem_map.mp h1
    subst hkrow
    exact ⟨ordersOf_eq_card _, ordersOf_le_length _⟩
  · intro row hrow
    rw [states, List.mem_insertionSort] at hrow
    obtain ⟨k, _, hkrow⟩ := List.mem_map.mp hrow
    subst hkrow
    exact ⟨ordersOf_eq_card _, ordersOf_le_length _⟩
  · intro row hrow
    rw [quarterly] at hrow
    obtain ⟨k, _, hkrow⟩ := List.mem_map.mp hrow
    subst hkrow
    exact ⟨ordersOf_eq_card _, ordersOf_le_length _⟩

/-- Witness for claim C10: the 2017-02 monthly row of the example master
table counts exactly one distinct order, within its group size. -/
theorem claim10_witness :
    (1 : ℕ) = ((groupOf ymKey exMaster "2017-02").map (fun r => r.ord.order_id)).toFinset.card ∧
    (1 : ℕ) ≤ (groupOf ymKey exMaster "2017-02").length :=
  (claim10_distinct_orders exOrders exItems exProducts exTranslations exPayments exCustomers
    exSellers exMaster rfl).1
    { year_month := "2017-02", revenue := 100, freight := 10, orders := 1, total := 110 }
    (by with_unfolding_all decide)
